import Mathlib

/-!
Shallow embedding of the adaptive interview orchestration engine of the
IIS_prepair_project repository, together with proofs of the specified
properties.

The embedding covers:
* the question selector (`src/interview_backend/question_selector.py`):
  Jaccard similarity, topic match scoring, and the weighted / diversity
  constrained sampling loop of `select_questions`;
* the agentic turn processor (`src/backend/services/interview_agent.py`):
  conversation state, per-turn decision handling, question refinement
  memoization, and the failure fallback;
* the readiness aggregator (`src/backend/services/readiness.py`).

Database queries are abstracted as explicit inputs (lists / lookup
functions), floating point arithmetic is modelled over `ℚ`, JSON blobs are
modelled as their parsed values, and the random draws of `random.choices`
are modelled by an arbitrary tape of indices into the remaining candidate
list (any concrete run of the Python code corresponds to some tape).
-/

namespace IISPrep

/-! ## Question selector (`src/interview_backend/question_selector.py`) -/

/-- A question bank row, as used by `select_questions`: the `topics` field
holds the parsed value of the `topics` JSON column (`json.loads(q.topics or
"[]")`). -/
structure Question where
  id : Nat
  question_text : String
  topics : List String
  difficulty : Option String := none
  deriving DecidableEq

/-- Embeds `compute_jaccard_similarity` (question_selector.py lines 12-16):
`intersection / union if union > 0 else 0.0`. -/
def compute_jaccard_similarity (set1 set2 : Finset String) : ℚ :=
  let intersection := (set1 ∩ set2).card
  let union := (set1 ∪ set2).card
  if 0 < union then (intersection : ℚ) / (union : ℚ) else 0

/-- Python `str.startswith(pre)`, modelled on the characters (used by
the interview score for for the `"code:"` question-id prefix
convention). -/
def strStarts (s pre : String) : Bool :=
  s.toList.take pre.toList.length == pre.toList

/-- Substring containment test, mirroring the Python `in` operator on
strings (`topic_lower in weight_topic`). -/
def strHasSub (hay needle : String) : Bool :=
  (List.range (hay.toList.length + 1)).any
    (fun i => (hay.toList.drop i).take needle.toList.length == needle.toList)

/-- Embeds `compute_match_score` (question_selector.py lines 19-41).  The
`topic_weights` dict (insertion ordered) is modelled as an association
list.  The Python code lower-cases both the question topics and the weight
keys before comparing them; the embedding works directly with the
lower-cased names, so topic strings here stand for their `.lower()`
forms. -/
def compute_match_score (q : Question) (topic_weights : List (String × ℚ)) : ℚ :=
  if q.topics = [] then 1/2
  else
    let score := q.topics.foldl (fun acc topic =>
      match topic_weights.find? (fun p => p.1 == topic) with
      | some p => acc + p.2
      | none =>
        match topic_weights.find?
            (fun p => strHasSub p.1 topic || strHasSub topic p.1) with
        | some p => acc + p.2 * (1/2)
        | none => acc) 0
    score / (max 1 q.topics.length : ℕ)

/-- One step of the stable descending insertion used to model the Python
stable `sort(key=score, reverse=True)`: an element is placed before every
later element whose score is not strictly greater. -/
def insertDesc (a : Question × ℚ) : List (Question × ℚ) → List (Question × ℚ)
  | [] => [a]
  | b :: bs => if a.2 < b.2 then b :: insertDesc a bs else a :: b :: bs

/-- Stable descending sort by score (question_selector.py line 125). -/
def sortDesc (l : List (Question × ℚ)) : List (Question × ℚ) :=
  l.foldr insertDesc []

/-- The sampling loop of `select_questions` (question_selector.py lines
136-164).  `tape` supplies the index drawn by `random.choices` at each
iteration (modulo the number of remaining candidates); `fuel` bounds the
number of iterations and is chosen by the caller to dominate the loop
measure `(num - selected.length) + top.length`, which strictly decreases
at every iteration, so the bound is never hit before the loop guard
fails.  The Python guard `if overlap > 0.8 and len(remaining) > 1` sits
inside `if len(selected) > 1`, falling through to acceptance otherwise;
the two nested conditionals are written here as one conjunction. -/
def selectLoop : Nat → List Nat → Nat → List (Question × ℚ) →
    List Question → List Nat → List Question
  | 0, _, _, _, selected, _ => selected
  | fuel + 1, tape, num, top, selected, used =>
    if selected.length < num ∧ top ≠ [] then
      let remaining := top.filter (fun sq => !(used.contains sq.1.id))
      if remaining = [] then selected
      else
        let chosen := remaining.getD ((tape.headD 0) % remaining.length)
          (⟨0, "", [], none⟩, 0)
        let selected1 := selected ++ [chosen.1]
        let selected_topics := selected.foldl
          (fun acc q => acc ∪ q.topics.toFinset) (∅ : Finset String)
        let new_topics := chosen.1.topics.toFinset
        let overlap := compute_jaccard_similarity selected_topics new_topics
        if 1 < selected1.length ∧ 4/5 < overlap ∧ 1 < remaining.length then
          selectLoop fuel tape.tail num (top.erase chosen) selected used
        else
          selectLoop fuel tape.tail num top selected1 (used ++ [chosen.1.id])
    else selected

/-- Embeds `select_questions` (question_selector.py lines 80-166).  The database
query for candidates of the requested type/difficulty is abstracted as the
`candidates` input, and `get_recent_question_ids` as `recent_ids`. -/
def select_questions (tape : List Nat) (candidates : List Question)
    (topic_weights : List (String × ℚ)) (num_questions : Nat)
    (recent_ids : List Nat) (exclude_question_ids : List Nat) : List Question :=
  if candidates = [] then []
  else
    let recent := recent_ids ++ exclude_question_ids
    let filtered0 := candidates.filter (fun q => !(recent.contains q.id))
    let filtered_candidates := if filtered0 = [] then candidates else filtered0
    let scored_questions := filtered_candidates.map
      (fun q => (q, compute_match_score q topic_weights))
    let sorted := sortDesc scored_questions
    let top_k := min (num_questions * 3) sorted.length
    let top_candidates := sorted.take top_k
    (selectLoop (num_questions + top_candidates.length) tape num_questions
      top_candidates [] []).take num_questions

/-! ## Turn processor (`src/backend/services/interview_agent.py`)

`AgenticInterviewAgent.process_turn` is embedded as a pure function.  The
SQL layer is abstracted: the question table becomes a lookup function, the
turn-count / parent-turn queries of `_create_turn` become the inputs
`lastMainTurnId`, and `datetime.utcnow()` becomes the `now : Nat` input.
The external reasoning capability (`AgentReasoningLoop.run`, whose module
is not part of the sources and which the spec leaves unspecified) is an
`Except Unit AgentDecision` input: `.error` models the call raising.  The
refinement capability `_refine_and_translate` (whose internal LLM failure
fallback returns the original text) is a function input
`refineFn text type language`; each invocation of it is recorded in the
resulting `refined_slots` field so that memoization can be stated. -/

/-- Modelled from the spec: the judgment produced by the external
reasoning capability — `{action, message, followup_question?,
satisfaction_score}` (the `AgentDecision` class lives in
`backend/services/agent_reasoning.py`, which is not among the sources;
only the fields read by `interview_agent.py` are modelled). -/
structure AgentDecision where
  action : String
  message : String
  followup_question : Option String := none
  satisfaction_score : ℚ
  deriving DecidableEq

/-- One plan item, as read by `process_turn` (`selected_question_id` and
`type` are the only keys it consults; a missing key yields the default). -/
structure PlanItem where
  selected_question_id : Option String := none
  type : String := "open"
  deriving DecidableEq

/-- A `QuestionBank` row as used by the agent (backend/models.py line 90):
`topics_json` is modelled by its parsed value. -/
structure QuestionRow where
  id : String
  question_text : String
  topics_json : List String := []
  deriving DecidableEq

/-- The ConversationState blob of `_load_state` (interview_agent.py lines
21-29) together with the `refined_q_{i}` cache keys the agent stores in
the same dict (modelled as an association list from slot index to text). -/
structure ConvState where
  current_question_id : Option String := none
  followup_count : Nat := 0
  question_index : Nat := 0
  initial_answer_score : ℚ := 0
  previous_followups : List String := []
  refined_cache : List (Nat × String) := []
  deriving DecidableEq

/-- Reading the `refined_q_{idx}` key of the state dict. -/
def lookupRefined (st : ConvState) (idx : Nat) : Option String :=
  (st.refined_cache.find? (fun p => p.1 == idx)).map (·.2)

/-- Writing the `refined_q_{idx}` key of the state dict.  The dict is
modelled as an association list read through `lookupRefined` (first match
wins), so prepending the new binding realises `state[key] = value`. -/
def insertRefined (st : ConvState) (idx : Nat) (text : String) : ConvState :=
  { st with refined_cache := (idx, text) :: st.refined_cache }

/-- The `InterviewSession` row fields touched by the agent. -/
structure SessionRow where
  language : String := "english"
  ended_at : Option Nat := none
  question_start_time : Option Nat := none
  state : ConvState := {}
  deriving DecidableEq

/-- The fields of the immutable `InterviewTurn` record created by
`_create_turn` that the specification speaks about. -/
structure TurnRow where
  question_id : String
  question_snapshot : String
  overall_score : ℚ
  question_number : Nat
  is_followup : Bool
  parent_turn_id : Option String := none
  deriving DecidableEq

/-- The `next_question` payload built by `_get_next_question_data`. -/
structure NextQuestionData where
  question_id : String
  text : String
  type : String
  topics : List String
  deriving DecidableEq

/-- The API response dict of `process_turn`. -/
structure TurnResponse where
  interviewer_message : String
  followup_question : Option String
  next_question : Option NextQuestionData
  is_done : Bool
  progress_turn_index : Nat
  progress_total : Nat
  agent_decision : Option String := none
  deriving DecidableEq

/-- Everything one `process_turn` call produces: the response, the session
row as persisted, the Turn records appended, and the list of plan slots
for which the refinement capability was invoked during the call. -/
structure TurnResult where
  response : TurnResponse
  sess : SessionRow
  turns : List TurnRow
  refined_slots : List Nat
  deriving DecidableEq

/-- Python truthiness of `decision.followup_question` (None or empty
string are falsy). -/
def truthyOpt : Option String → Bool
  | none => false
  | some s => !(s == "")

/-- Reads `plan_items[question_index] if question_index < len(plan_items) else` an empty dict,
followed by `.get(...)` with defaults. -/
def planItemAt (plan_items : List PlanItem) (i : Nat) : PlanItem :=
  plan_items.getD i ⟨none, "open"⟩

/-- Embeds `_get_next_question_data` (interview_agent.py lines 371-422).  Returns
the payload, the state as updated (the refined text is cached and saved),
and the refined slots. -/
def get_next_question_data (db : String → Option QuestionRow)
    (refineFn : String → String → String → String) (next_index : Nat)
    (plan_items : List PlanItem) (language : String) (state : ConvState) :
    Option NextQuestionData × ConvState × List Nat :=
  if plan_items.length ≤ next_index then (none, state, [])
  else
    let next_item := planItemAt plan_items next_index
    match next_item.selected_question_id.bind db with
    | none => (none, state, [])
    | some next_question =>
      match lookupRefined state next_index with
      | some cached =>
        (some ⟨next_question.id, cached, next_item.type, next_question.topics_json⟩,
         state, [])
      | none =>
        let question_text := refineFn next_question.question_text next_item.type language
        (some ⟨next_question.id, question_text, next_item.type, next_question.topics_json⟩,
         insertRefined state next_index question_text, [next_index])

/-- Embeds `_process_decision` (interview_agent.py lines 231-331).  Takes the
state as already updated by the refinement block (the Python code saved it
to the session row at that point, so every branch persists it). -/
def process_decision (db : String → Option QuestionRow)
    (refineFn : String → String → String → String) (now : Nat)
    (decision : AgentDecision) (question_id : Option String)
    (question_index followup_count : Nat) (previous_followups : List String)
    (plan_items : List PlanItem) (sess : SessionRow) (state : ConvState)
    (language : String) : TurnResponse × SessionRow × List Nat :=
  if decision.action == "followup" && truthyOpt decision.followup_question then
    let f := decision.followup_question.getD ""
    let state1 := { state with
      current_question_id := question_id,
      followup_count := followup_count + 1,
      initial_answer_score := decision.satisfaction_score,
      previous_followups := previous_followups ++ [f] }
    let message := if decision.message ≠ "" then decision.message else f
    (⟨message, some f, none, false, question_index + 1, plan_items.length,
      some decision.action⟩,
     { sess with state := state1 }, [])
  else if decision.action == "hint" then
    (⟨(if decision.message ≠ "" then decision.message else "Let me give you a hint."),
      none, none, false, question_index + 1, plan_items.length, some decision.action⟩,
     { sess with state := state }, [])
  else if decision.action == "end" then
    (⟨(if decision.message ≠ "" then decision.message else "Thank you for your time today."),
      none, none, true, question_index + 1, plan_items.length, some decision.action⟩,
     { sess with ended_at := some now, state := state }, [])
  else
    let state1 := { state with
      question_index := question_index + 1,
      followup_count := 0,
      previous_followups := [] }
    let next := get_next_question_data db refineFn (question_index + 1) plan_items
      language state1
    let message :=
      if decision.message ≠ "" then decision.message
      else if next.1.isSome then
        (if language == "hebrew" then "בוא נמשיך לשאלה הבאה."
         else "Let\x27s move to the next question.")
      else
        (if language == "hebrew" then "מצוין! בוא נמשיך." else "Great! Let\x27s continue.")
    (⟨message, none, next.1, decide (plan_items.length ≤ question_index + 1),
      question_index + 1, plan_items.length, some decision.action⟩,
     { sess with state := next.2.1, question_start_time := some now }, next.2.2)

/-- The fallback decision substituted when the reasoning loop raises
(interview_agent.py lines 194-202). -/
def fallbackDecision : AgentDecision :=
  ⟨"advance", "Let\x27s continue with the next question.", none, 1/2⟩

/-- Embeds `AgenticInterviewAgent.process_turn` (interview_agent.py lines
111-229).  `reasonResult` is the outcome of `self.reasoning_loop.run`;
`lastMainTurnId` is the id returned by `_get_last_main_turn`. -/
def process_turn (db : String → Option QuestionRow)
    (reasonResult : Except Unit AgentDecision)
    (refineFn : String → String → String → String)
    (lastMainTurnId : Option String) (now : Nat)
    (sess : SessionRow) (plan_items : List PlanItem) : TurnResult :=
  let state := sess.state
  let followup_count := state.followup_count
  let question_index := state.question_index
  let previous_followups := state.previous_followups
  if followup_count = 0 ∧ plan_items.length ≤ question_index then
    { response := ⟨"Thank you! The interview is complete.", none, none, true,
        question_index, plan_items.length, none⟩,
      sess := { sess with ended_at := some now },
      turns := [], refined_slots := [] }
  else
    let plan_item := planItemAt plan_items question_index
    let question_id :=
      if 0 < followup_count then state.current_question_id
      else plan_item.selected_question_id
    match question_id.bind db with
    | none =>
      { response := ⟨"Sorry, I hit an error loading the question.", none, none, true,
          question_index, plan_items.length, none⟩,
        sess := sess, turns := [], refined_slots := [] }
    | some question0 =>
      let language := if sess.language == "" then "english" else sess.language
      let refinement :=
        match lookupRefined state question_index with
        | some cached => (cached, state, ([] : List Nat))
        | none =>
          let refined := refineFn question0.question_text plan_item.type language
          (refined, insertRefined state question_index refined, [question_index])
      let question : QuestionRow := { question0 with question_text := refinement.1 }
      let state2 := refinement.2.1
      let decision :=
        match reasonResult with
        | .ok d => d
        | .error _ => fallbackDecision
      let turn : TurnRow :=
        { question_id := question.id,
          question_snapshot := question.question_text,
          overall_score := decision.satisfaction_score,
          question_number := question_index,
          is_followup := decide (0 < followup_count),
          parent_turn_id := if 0 < followup_count then lastMainTurnId else none }
      let sess2 := { sess with state := state2 }
      let processed := process_decision db refineFn now decision question_id
        question_index followup_count previous_followups plan_items sess2 state2 language
      { response := processed.1, sess := processed.2.1, turns := [turn],
        refined_slots := refinement.2.2 ++ processed.2.2 }

/-! ## Readiness aggregator (`src/backend/services/readiness.py`)

The SQL queries are abstracted as inputs: the most recent CV analysis for
the user and job, the turn rows of the most recent session (`none` when no
session exists), and the `created_at` timestamps of the sessions of the user
(seconds, as integers). -/

/-- A `cv_analysis_results` row (backend/models.py line 53): the JSON
arrays `strengths_json` / `gaps_json` are modelled by their parsed
values. -/
structure CVAnalysisResult where
  match_score : ℚ
  strengths : List String
  gaps : List String
  deriving DecidableEq

/-- A turn row as consumed by `_compute_interview_score`: `overall` is the
`"overall"` entry of the parsed `score_json` (`none` when absent, in which
case the code uses the default `0.5`). -/
structure TurnScoreRow where
  question_id : String
  overall : Option ℚ := none
  deriving DecidableEq

/-- The score fields of a `UserReadinessSnapshot` row. -/
structure UserReadinessSnapshot where
  readiness_score : ℚ
  cv_score : ℚ
  interview_score : ℚ
  practice_score : ℚ
  deriving DecidableEq

/-- Embeds `_compute_cv_score` (readiness.py lines 58-84). -/
def compute_cv_score (job_spec_id : Option String)
    (latest_analysis : Option CVAnalysisResult) : ℚ :=
  match job_spec_id with
  | none => 0
  | some _ =>
    match latest_analysis with
    | none => 0
    | some a =>
      let base_score := a.match_score * 100
      let coverage_bonus :=
        min 10 ((a.strengths.length : ℚ) * 2 - (a.gaps.length : ℚ) * 1)
      max 0 (min 100 (base_score + coverage_bonus))

/-- Embeds `_compute_interview_score` (readiness.py lines 87-140).
`latest_session_turns` is `none` when the user has no session, otherwise
the turns of the most recent session. -/
def compute_interview_score (latest_session_turns : Option (List TurnScoreRow)) : ℚ :=
  match latest_session_turns with
  | none => 0
  | some turns =>
    if turns = [] then 0
    else
      let pairs := turns.map (fun t =>
        let overall := t.overall.getD (1/2)
        let weight : ℚ := if strStarts t.question_id "code:" then 3/5 else 2/5
        (overall, weight))
      let total_weight := (pairs.map (·.2)).sum
      let avg_score :=
        if total_weight = 0 then (pairs.map (·.1)).sum / (pairs.length : ℚ)
        else (pairs.map (fun p => p.1 * p.2)).sum / total_weight
      avg_score * 100

/-- Embeds `_compute_practice_score` (readiness.py lines 143-176); times are in
seconds, `timedelta(days=7)` is `604800`. -/
def compute_practice_score (now : ℤ) (session_created_ats : List ℤ) : ℚ :=
  let session_count := session_created_ats.length
  if session_count = 0 then 0
  else
    let recent_cutoff := now - 604800
    let recent_count :=
      (session_created_ats.filter (fun c => decide (recent_cutoff ≤ c))).length
    let trend_bonus : ℚ := if 2 ≤ session_count then 5 else 0
    let count_score : ℚ := min 50 ((session_count : ℚ) * 5)
    let recency_bonus : ℚ := min 30 ((recent_count : ℚ) * 10)
    min 100 (count_score + recency_bonus + trend_bonus)

/-- Embeds `compute_readiness_snapshot` (readiness.py lines 12-55), restricted to
the score fields of the persisted snapshot. -/
def compute_readiness_snapshot (job_spec_id : Option String)
    (latest_analysis : Option CVAnalysisResult)
    (latest_session_turns : Option (List TurnScoreRow))
    (now : ℤ) (session_created_ats : List ℤ) : UserReadinessSnapshot :=
  let cv_score := compute_cv_score job_spec_id latest_analysis
  let interview_score := compute_interview_score latest_session_turns
  let practice_score := compute_practice_score now session_created_ats
  let readiness_score := cv_score * (2/5) + interview_score * (1/2) + practice_score * (1/10)
  { readiness_score := readiness_score, cv_score := cv_score,
    interview_score := interview_score, practice_score := practice_score }

/-! ## Concrete data used in counterexamples and witnesses -/

/-- Modelled from the spec: the §4.4 cv-score formula exactly as worded,
with the coverage bonus "clamped to a `[0,10]` bonus" on both sides; kept
separate from `compute_cv_score` (which is translated from the code) so
the two can be compared. -/
def compute_cv_score_specClamp (job_spec_id : Option String)
    (latest_analysis : Option CVAnalysisResult) : ℚ :=
  match job_spec_id, latest_analysis with
  | some _, some a =>
    let base_score := a.match_score * 100
    let coverage_bonus :=
      max 0 (min 10 ((a.strengths.length : ℚ) * 2 - (a.gaps.length : ℚ) * 1))
    max 0 (min 100 (base_score + coverage_bonus))
  | _, _ => 0

/-- The analysis row exhibiting the cv-score divergence: no strengths,
five gaps. -/
def cexAnalysis : CVAnalysisResult := ⟨1/2, [], ["g1", "g2", "g3", "g4", "g5"]⟩

def cexQ1 : Question := ⟨1, "q1", ["a"], none⟩
def cexQ2 : Question := ⟨2, "q2", ["b"], none⟩
def cexQ3 : Question := ⟨3, "q3", ["a"], none⟩
def cexQ4 : Question := ⟨4, "q4", ["c"], none⟩
def cexQ5 : Question := ⟨5, "q5", ["d"], none⟩

/-- Candidate pool for the batch-diversity counterexample: `cexQ1` and
`cexQ3` share their whole topic set, `cexQ4`/`cexQ5` overlap with
nothing. -/
def cexPool : List Question := [cexQ1, cexQ2, cexQ3, cexQ4, cexQ5]

def cexWeights : List (String × ℚ) := [("a", 9/10), ("b", 4/5), ("c", 7/10), ("d", 3/5)]

def sampleQ : QuestionRow := ⟨"q1", "What is a hash map?", ["maps"]⟩

def sampleDb : String → Option QuestionRow :=
  fun s => if s == "q1" then some sampleQ else none

def samplePlan : List PlanItem := [⟨some "q1", "open"⟩]

def samplePlan2 : List PlanItem := [⟨some "q1", "open"⟩, ⟨some "q1", "open"⟩]

def sampleRefine : String → String → String → String :=
  fun text _ _ => "Refined: " ++ text

end IISPrep

/-! ## Theorems -/

namespace IISPrep

section RatEval
attribute [local semireducible] Rat.mul Rat.inv Rat.add Rat.sub

/-- C9: the Jaccard similarity function equals `|A∩B| / |A∪B|`, returns 0
on two empty sets, lies in `[0,1]` for non-empty sets, and is 1 on a
non-empty set compared with itself. -/
theorem C9_jaccard_properties :
    (∀ A B : Finset String,
      compute_jaccard_similarity A B =
        if 0 < (A ∪ B).card then ((A ∩ B).card : ℚ) / ((A ∪ B).card : ℚ) else 0)
    ∧ compute_jaccard_similarity (∅ : Finset String) ∅ = 0
    ∧ (∀ A B : Finset String, A.Nonempty → B.Nonempty →
        0 ≤ compute_jaccard_similarity A B ∧ compute_jaccard_similarity A B ≤ 1)
    ∧ (∀ A : Finset String, A.Nonempty → compute_jaccard_similarity A A = 1) := by
  refine ⟨fun A B => rfl, by simp [compute_jaccard_similarity], ?_, ?_⟩
  · intro A B hA hB
    have hu : 0 < (A ∪ B).card :=
      Finset.card_pos.mpr (hA.mono Finset.subset_union_left)
    unfold compute_jaccard_similarity
    rw [if_pos hu]
    constructor
    · exact div_nonneg (by positivity) (by positivity)
    · rw [div_le_one (by exact_mod_cast hu)]
      exact_mod_cast Finset.card_le_card Finset.inter_subset_union
  · intro A hA
    have hu : 0 < A.card := Finset.card_pos.mpr hA
    unfold compute_jaccard_similarity
    simp only [Finset.inter_self, Finset.union_self, if_pos hu]
    exact div_self (by exact_mod_cast hu.ne.symm)

/-- C9 witness: the properties instantiated at the non-empty sets
`{"x"}` and `{"y"}`. -/
theorem C9_jaccard_properties_witness :
    (0 ≤ compute_jaccard_similarity {"x"} {"y"}
      ∧ compute_jaccard_similarity {"x"} {"y"} ≤ 1)
    ∧ compute_jaccard_similarity {"x"} {"x"} = 1 :=
  ⟨C9_jaccard_properties.2.2.1 {"x"} {"y"} (Finset.singleton_nonempty "x")
      (Finset.singleton_nonempty "y"),
   C9_jaccard_properties.2.2.2 {"x"} (Finset.singleton_nonempty "x")⟩

/-- C2 counterexample: with match score `0.5`, no strengths and five gaps,
the code computes `50 + min(10, -5) = 45` — the coverage bonus is only
clamped from above, it is not clamped to `[0,10]` — while the formula the
claim states (bonus clamped to `[0,10]`) yields `50`. -/
theorem C2_cv_score_counterexample :
    compute_cv_score (some "job") (some cexAnalysis) = 45
    ∧ compute_cv_score_specClamp (some "job") (some cexAnalysis) = 50
    ∧ compute_cv_score (some "job") (some cexAnalysis) ≠
        compute_cv_score_specClamp (some "job") (some cexAnalysis) := by
  refine ⟨by decide, by decide, by decide⟩

/-- C2 (amended): the cv score is the match score scaled by 100 plus the
coverage bonus `min(10, 2×strengths − gaps)` — clamped from above at 10
but allowed to be negative — with the final result clamped to `[0,100]`;
it is 0 when there is no analysis or no job spec. -/
theorem C2_cv_score_amended (job : String) (a : CVAnalysisResult) :
    compute_cv_score (some job) (some a) =
      max 0 (min 100 (a.match_score * 100 +
        min 10 ((a.strengths.length : ℚ) * 2 - (a.gaps.length : ℚ))))
    ∧ compute_cv_score none (some a) = 0
    ∧ compute_cv_score (some job) none = 0
    ∧ 0 ≤ compute_cv_score (some job) (some a)
    ∧ compute_cv_score (some job) (some a) ≤ 100 := by
  refine ⟨by simp [compute_cv_score, mul_one], rfl, rfl, le_max_left _ _,
    max_le (by norm_num) (min_le_left _ _)⟩

/-- C4: the readiness score of every computed snapshot is
`0.4·cv + 0.5·interview + 0.1·practice`, and on data yielding the
sub-scores `cv=80, interview=60, practice=20` the snapshot is exactly
`(64, 80, 60, 20)`. -/
theorem C4_readiness_weights :
    (∀ (job : Option String) (a : Option CVAnalysisResult)
        (turns : Option (List TurnScoreRow)) (now : ℤ) (sessions : List ℤ),
      (compute_readiness_snapshot job a turns now sessions).readiness_score =
        (2/5) * (compute_readiness_snapshot job a turns now sessions).cv_score
        + (1/2) * (compute_readiness_snapshot job a turns now sessions).interview_score
        + (1/10) * (compute_readiness_snapshot job a turns now sessions).practice_score)
    ∧ compute_readiness_snapshot (some "job")
        (some ⟨7/10, ["s1", "s2", "s3", "s4", "s5"], []⟩)
        (some [⟨"open1", some (3/5)⟩]) 10000000 [0, 0, 0] =
      ⟨64, 80, 60, 20⟩ := by
  constructor
  · intro job a turns now sessions
    simp only [compute_readiness_snapshot]
    ring
  · decide

end RatEval

/-! ### Helper lemmas about the turn processor -/

theorem lookupRefined_insert (st : ConvState) (i : Nat) (t : String) :
    lookupRefined (insertRefined st i t) i = some t := by
  simp [lookupRefined, insertRefined]

theorem insertRefined_followup_count (st : ConvState) (i : Nat) (t : String) :
    (insertRefined st i t).followup_count = st.followup_count := rfl

theorem insertRefined_question_index (st : ConvState) (i : Nat) (t : String) :
    (insertRefined st i t).question_index = st.question_index := rfl

theorem insertRefined_current_question_id (st : ConvState) (i : Nat) (t : String) :
    (insertRefined st i t).current_question_id = st.current_question_id := rfl

theorem insertRefined_previous_followups (st : ConvState) (i : Nat) (t : String) :
    (insertRefined st i t).previous_followups = st.previous_followups := rfl

/-- The helper `_get_next_question_data` only touches the refinement cache of the
state it is given. -/
theorem get_next_state_fields (db : String → Option QuestionRow)
    (refineFn : String → String → String → String) (i : Nat)
    (plan : List PlanItem) (lang : String) (st : ConvState) :
    ((get_next_question_data db refineFn i plan lang st).2.1).question_index
        = st.question_index
    ∧ ((get_next_question_data db refineFn i plan lang st).2.1).followup_count
        = st.followup_count
    ∧ ((get_next_question_data db refineFn i plan lang st).2.1).previous_followups
        = st.previous_followups
    ∧ ((get_next_question_data db refineFn i plan lang st).2.1).current_question_id
        = st.current_question_id := by
  unfold get_next_question_data
  by_cases h : plan.length ≤ i
  · simp [h]
  · simp only [h, if_false]
    cases hbind : (planItemAt plan i).selected_question_id.bind db with
    | none => simp [hbind]
    | some nq =>
      cases hc : lookupRefined st i with
      | some t => simp [hbind, hc]
      | none => simp [hbind, hc, insertRefined]

/-- Every plan slot `_get_next_question_data` refines is the slot it was
asked about. -/
theorem get_next_slots (db : String → Option QuestionRow)
    (refineFn : String → String → String → String) (i : Nat)
    (plan : List PlanItem) (lang : String) (st : ConvState) :
    ∀ j ∈ (get_next_question_data db refineFn i plan lang st).2.2, j = i := by
  unfold get_next_question_data
  by_cases h : plan.length ≤ i
  · simp [h]
  · simp only [h, if_false]
    cases hbind : (planItemAt plan i).selected_question_id.bind db with
    | none => simp [hbind]
    | some nq =>
      cases hc : lookupRefined st i with
      | some t => simp [hbind, hc]
      | none => simp [hbind, hc]

/-- Every plan slot `_process_decision` refines is the successor slot. -/
theorem process_decision_slots (db : String → Option QuestionRow)
    (refineFn : String → String → String → String) (now : Nat)
    (decision : AgentDecision) (qid : Option String) (qi fc : Nat)
    (prev : List String) (plan : List PlanItem) (sess : SessionRow)
    (st : ConvState) (lang : String) :
    ∀ j ∈ (process_decision db refineFn now decision qid qi fc prev plan
        sess st lang).2.2, j = qi + 1 := by
  unfold process_decision
  split
  · simp
  · split
    · simp
    · split
      · simp
      · exact get_next_slots db refineFn (qi + 1) plan lang _

/-- The completion branch of `process_turn` (interview_agent.py lines
126-136): when no follow-up is pending and the question index has reached
the plan length, the session is closed, `is_done` is returned, and no
Turn is created. -/
theorem process_turn_complete (db : String → Option QuestionRow)
    (reasonResult : Except Unit AgentDecision)
    (refineFn : String → String → String → String)
    (lm : Option String) (now : Nat) (sess : SessionRow) (plan : List PlanItem)
    (h0 : sess.state.followup_count = 0)
    (h1 : plan.length ≤ sess.state.question_index) :
    process_turn db reasonResult refineFn lm now sess plan =
      { response := ⟨"Thank you! The interview is complete.", none, none, true,
          sess.state.question_index, plan.length, none⟩,
        sess := { sess with ended_at := some now },
        turns := [], refined_slots := [] } := by
  simp [process_turn, h0, h1]

theorem get_next_question_index (db : String → Option QuestionRow)
    (refineFn : String → String → String → String) (i : Nat)
    (plan : List PlanItem) (lang : String) (st : ConvState) :
    ((get_next_question_data db refineFn i plan lang st).2.1).question_index
      = st.question_index :=
  (get_next_state_fields db refineFn i plan lang st).1

theorem get_next_followup_count (db : String → Option QuestionRow)
    (refineFn : String → String → String → String) (i : Nat)
    (plan : List PlanItem) (lang : String) (st : ConvState) :
    ((get_next_question_data db refineFn i plan lang st).2.1).followup_count
      = st.followup_count :=
  (get_next_state_fields db refineFn i plan lang st).2.1

theorem get_next_previous_followups (db : String → Option QuestionRow)
    (refineFn : String → String → String → String) (i : Nat)
    (plan : List PlanItem) (lang : String) (st : ConvState) :
    ((get_next_question_data db refineFn i plan lang st).2.1).previous_followups
      = st.previous_followups :=
  (get_next_state_fields db refineFn i plan lang st).2.2.1

/-! ### The claims about the turn processor -/

/-- C1: when `followup_count = 0` and `question_index` equals the plan
length, `process_turn` returns `is_done`, closes the session and creates
no Turn; and an `advance` decision on the last plan item leaves `ended_at`
untouched (completion is not synchronous) while moving `question_index`
past the plan, so that the *next* invocation detects completion. -/
theorem C1_completion_deferred (db : String → Option QuestionRow)
    (reasonA reason2 : Except Unit AgentDecision)
    (refineFn : String → String → String → String)
    (lmA lmB lm2 : Option String) (nowA nowB now2 : Nat)
    (sessA : SessionRow) (planA : List PlanItem)
    (hA0 : sessA.state.followup_count = 0)
    (hA1 : sessA.state.question_index = planA.length)
    (sessB : SessionRow) (planB : List PlanItem) (d : AgentDecision) (q : QuestionRow)
    (hB0 : sessB.state.followup_count = 0)
    (hB1 : sessB.state.question_index + 1 = planB.length)
    (hBq : ((planItemAt planB sessB.state.question_index).selected_question_id).bind db
        = some q)
    (hBd : d.action = "advance") :
    ((process_turn db reasonA refineFn lmA nowA sessA planA).response.is_done = true
      ∧ (process_turn db reasonA refineFn lmA nowA sessA planA).turns = []
      ∧ (process_turn db reasonA refineFn lmA nowA sessA planA).sess.ended_at = some nowA)
    ∧ ((process_turn db (.ok d) refineFn lmB nowB sessB planB).sess.ended_at
          = sessB.ended_at
      ∧ (process_turn db (.ok d) refineFn lmB nowB sessB planB).sess.state.question_index
          = planB.length
      ∧ (process_turn db (.ok d) refineFn lmB nowB sessB planB).sess.state.followup_count
          = 0
      ∧ (process_turn db reason2 refineFn lm2 now2
            (process_turn db (.ok d) refineFn lmB nowB sessB planB).sess
            planB).response.is_done = true
      ∧ (process_turn db reason2 refineFn lm2 now2
            (process_turn db (.ok d) refineFn lmB nowB sessB planB).sess
            planB).turns = []
      ∧ (process_turn db reason2 refineFn lm2 now2
            (process_turn db (.ok d) refineFn lmB nowB sessB planB).sess
            planB).sess.ended_at = some now2) := by
  have hdone := process_turn_complete db reasonA refineFn lmA nowA sessA planA hA0 hA1.ge
  refine ⟨⟨by rw [hdone], by rw [hdone], by rw [hdone]⟩, ?_⟩
  have hnd : ¬(sessB.state.followup_count = 0
      ∧ planB.length ≤ sessB.state.question_index) := by
    rintro ⟨-, hle⟩
    omega
  have hB : (process_turn db (.ok d) refineFn lmB nowB sessB planB).sess.ended_at
        = sessB.ended_at
      ∧ (process_turn db (.ok d) refineFn lmB nowB sessB planB).sess.state.question_index
        = planB.length
      ∧ (process_turn db (.ok d) refineFn lmB nowB sessB planB).sess.state.followup_count
        = 0 := by
    have hnlt : ¬ planB.length ≤ sessB.state.question_index := by omega
    simp only [process_turn, hB0, hnlt, hBq, lt_irrefl, if_false, and_false, and_true,
      eq_self_iff_true, true_and, false_and, if_neg hnlt]
    have hfu : ¬(d.action == "followup" && truthyOpt d.followup_question) = true := by
      simp [hBd]
    have hhint : ¬(d.action == "hint") = true := by simp [hBd]
    have hend : ¬(d.action == "end") = true := by simp [hBd]
    cases hcache : lookupRefined sessB.state sessB.state.question_index <;>
      simp +zetaDelta only [hcache, process_decision, hfu, hhint, hend, if_false,
        Bool.false_eq_true] <;>
      rw [show sessB.state.question_index + 1 = planB.length from hB1] <;>
      simp [get_next_question_data]
  refine ⟨hB.1, hB.2.1, hB.2.2, ?_⟩
  have hcomp := process_turn_complete db reason2 refineFn lm2 now2
    (process_turn db (.ok d) refineFn lmB nowB sessB planB).sess planB
    hB.2.2 hB.2.1.ge
  exact ⟨by rw [hcomp], by rw [hcomp], by rw [hcomp]⟩

/-- C1 witness: with the one-question sample plan, a session at index 1
completes immediately, and a fresh session advanced past the last item is
closed by the following invocation. -/
theorem C1_completion_deferred_witness :
    (process_turn sampleDb (.ok fallbackDecision) sampleRefine none 7
        { state := { question_index := 1 } } samplePlan).response.is_done = true
    ∧ (process_turn sampleDb (.ok fallbackDecision) sampleRefine none 9
        (process_turn sampleDb (.ok fallbackDecision) sampleRefine none 8
          {} samplePlan).sess samplePlan).sess.ended_at = some 9 := by
  have h := C1_completion_deferred sampleDb (.ok fallbackDecision) (.ok fallbackDecision)
    sampleRefine none none none 7 8 9 { state := { question_index := 1 } } samplePlan
    rfl rfl {} samplePlan fallbackDecision sampleQ rfl rfl (by decide) rfl
  exact ⟨h.1.1, h.2.2.2.2.2.2⟩

/-- C5: a `followup` decision carrying a follow-up question increments
`followup_count`, keeps `question_index`, appends the follow-up text to
`previous_followups` and records the satisfaction score as
`initial_answer_score`; an `advance` decision resets `followup_count` to
0, clears `previous_followups` and increments `question_index`. -/
theorem C5_followup_advance_transitions (db : String → Option QuestionRow)
    (refineFn : String → String → String → String) (lm : Option String)
    (now : Nat) (sess : SessionRow) (plan : List PlanItem) (q : QuestionRow)
    (msg f : String) (s : ℚ) (hf : f ≠ "")
    (hnd : ¬(sess.state.followup_count = 0 ∧ plan.length ≤ sess.state.question_index))
    (hq : (if 0 < sess.state.followup_count then sess.state.current_question_id
           else (planItemAt plan sess.state.question_index).selected_question_id).bind db
          = some q) :
    ((process_turn db (.ok ⟨"followup", msg, some f, s⟩) refineFn lm now sess
          plan).sess.state.followup_count = sess.state.followup_count + 1
      ∧ (process_turn db (.ok ⟨"followup", msg, some f, s⟩) refineFn lm now sess
          plan).sess.state.question_index = sess.state.question_index
      ∧ (process_turn db (.ok ⟨"followup", msg, some f, s⟩) refineFn lm now sess
          plan).sess.state.previous_followups
          = sess.state.previous_followups ++ [f]
      ∧ (process_turn db (.ok ⟨"followup", msg, some f, s⟩) refineFn lm now sess
          plan).sess.state.initial_answer_score = s)
    ∧ ((process_turn db (.ok ⟨"advance", msg, none, s⟩) refineFn lm now sess
          plan).sess.state.followup_count = 0
      ∧ (process_turn db (.ok ⟨"advance", msg, none, s⟩) refineFn lm now sess
          plan).sess.state.previous_followups = []
      ∧ (process_turn db (.ok ⟨"advance", msg, none, s⟩) refineFn lm now sess
          plan).sess.state.question_index = sess.state.question_index + 1) := by
  constructor
  · simp only [process_turn, hnd, if_false, hq]
    cases hcache : lookupRefined sess.state sess.state.question_index <;>
      simp [process_decision, truthyOpt, hcache, hf, insertRefined]
  · simp only [process_turn, hnd, if_false, hq]
    cases hcache : lookupRefined sess.state sess.state.question_index <;>
      simp [process_decision, truthyOpt, hcache, get_next_question_index,
        get_next_followup_count, get_next_previous_followups, insertRefined]

/-- C5 witness: the transitions evaluated on the sample session and
plan. -/
theorem C5_followup_advance_transitions_witness :
    (process_turn sampleDb (.ok ⟨"followup", "ok", some "why?", 1/2⟩) sampleRefine
        none 3 {} samplePlan2).sess.state.followup_count = 0 + 1
    ∧ (process_turn sampleDb (.ok ⟨"advance", "ok", none, 1/2⟩) sampleRefine
        none 3 {} samplePlan2).sess.state.question_index = 0 + 1 := by
  have h := C5_followup_advance_transitions sampleDb sampleRefine none 3 {} samplePlan2
    sampleQ "ok" "why?" (1/2) (by decide) (by decide) rfl
  exact ⟨h.1.1, h.2.2.2⟩

/-- C6: a failure of the reasoning capability is processed exactly like an
`advance` decision with neutral satisfaction score `0.5`: the session
state moves to the next question, the recorded Turn carries score `0.5`,
and the response reports an `advance` decision. -/
theorem C6_reasoning_failure_advances (db : String → Option QuestionRow)
    (refineFn : String → String → String → String) (lm : Option String)
    (now : Nat) (sess : SessionRow) (plan : List PlanItem) (q : QuestionRow)
    (hnd : ¬(sess.state.followup_count = 0 ∧ plan.length ≤ sess.state.question_index))
    (hq : (if 0 < sess.state.followup_count then sess.state.current_question_id
           else (planItemAt plan sess.state.question_index).selected_question_id).bind db
          = some q) :
    process_turn db (.error ()) refineFn lm now sess plan
      = process_turn db (.ok fallbackDecision) refineFn lm now sess plan
    ∧ (process_turn db (.error ()) refineFn lm now sess plan).sess.state.question_index
        = sess.state.question_index + 1
    ∧ (process_turn db (.error ()) refineFn lm now sess plan).sess.state.followup_count
        = 0
    ∧ (process_turn db (.error ()) refineFn lm now sess
        plan).turns.map (·.overall_score) = [1/2]
    ∧ (process_turn db (.error ()) refineFn lm now sess plan).response.agent_decision
        = some "advance" := by
  refine ⟨rfl, ?_, ?_, ?_, ?_⟩ <;>
    · simp only [process_turn, hnd, if_false, hq]
      cases hcache : lookupRefined sess.state sess.state.question_index <;>
        simp [process_decision, truthyOpt, fallbackDecision, hcache,
          get_next_question_index, get_next_followup_count, insertRefined]

/-- C8: the refined question text is memoized per plan slot in the
conversation state: when the slot is already cached the turn presents
exactly the cached text and the refinement capability is not invoked for
that slot; and after a first (cache-miss) turn on a slot, a later turn on
the same slot presents the identical text without invoking the capability
at all. -/
theorem C8_refinement_memoized (db : String → Option QuestionRow)
    (refineFn : String → String → String → String)
    (lmH lmM lm2 : Option String) (nowH nowM now2 : Nat)
    (reasonH : Except Unit AgentDecision)
    (sessH : SessionRow) (planH : List PlanItem) (qH : QuestionRow) (t : String)
    (hndH : ¬(sessH.state.followup_count = 0
        ∧ planH.length ≤ sessH.state.question_index))
    (hqH : (if 0 < sessH.state.followup_count then sessH.state.current_question_id
           else (planItemAt planH sessH.state.question_index).selected_question_id).bind db
          = some qH)
    (hhit : lookupRefined sessH.state sessH.state.question_index = some t)
    (sessM : SessionRow) (planM : List PlanItem) (dM dM2 : AgentDecision)
    (qM : QuestionRow)
    (hndM : ¬(sessM.state.followup_count = 0
        ∧ planM.length ≤ sessM.state.question_index))
    (hqM : (if 0 < sessM.state.followup_count then sessM.state.current_question_id
           else (planItemAt planM sessM.state.question_index).selected_question_id).bind db
          = some qM)
    (hmiss : lookupRefined sessM.state sessM.state.question_index = none)
    (hdM : dM.action = "hint") (hdM2 : dM2.action = "hint") :
    ((process_turn db reasonH refineFn lmH nowH sessH
          planH).turns.map (·.question_snapshot) = [t]
      ∧ sessH.state.question_index ∉
          (process_turn db reasonH refineFn lmH nowH sessH planH).refined_slots)
    ∧ ((process_turn db (.ok dM) refineFn lmM nowM sessM planM).refined_slots
          = [sessM.state.question_index]
      ∧ (process_turn db (.ok dM) refineFn lmM nowM sessM
            planM).turns.map (·.question_snapshot)
          = [refineFn qM.question_text (planItemAt planM sessM.state.question_index).type
              (if sessM.language == "" then "english" else sessM.language)]
      ∧ lookupRefined (process_turn db (.ok dM) refineFn lmM nowM sessM
            planM).sess.state sessM.state.question_index
          = some (refineFn qM.question_text
              (planItemAt planM sessM.state.question_index).type
              (if sessM.language == "" then "english" else sessM.language))
      ∧ (process_turn db (.ok dM2) refineFn lm2 now2
            (process_turn db (.ok dM) refineFn lmM nowM sessM planM).sess
            planM).refined_slots = []
      ∧ (process_turn db (.ok dM2) refineFn lm2 now2
            (process_turn db (.ok dM) refineFn lmM nowM sessM planM).sess
            planM).turns.map (·.question_snapshot)
          = [refineFn qM.question_text (planItemAt planM sessM.state.question_index).type
              (if sessM.language == "" then "english" else sessM.language)]) := by
  have hfuM : (dM.action == "followup" && truthyOpt dM.followup_question) = false := by
    simp [hdM]
  have hhintM : (dM.action == "hint") = true := by simp [hdM]
  have hfuM2 : (dM2.action == "followup" && truthyOpt dM2.followup_question) = false := by
    simp [hdM2]
  have hhintM2 : (dM2.action == "hint") = true := by simp [hdM2]
  refine ⟨⟨?_, ?_⟩, ?_⟩
  · simp only [process_turn, hndH, if_false, hqH, hhit]
    simp
  · intro hmem
    simp only [process_turn, hndH, if_false, hqH, hhit, List.nil_append] at hmem
    have h2 := process_decision_slots db refineFn nowH _ _ _ _ _ planH _ _ _ _ hmem
    omega
  · have hr1sess : (process_turn db (.ok dM) refineFn lmM nowM sessM planM).sess.state
        = insertRefined sessM.state sessM.state.question_index
            (refineFn qM.question_text (planItemAt planM sessM.state.question_index).type
              (if sessM.language == "" then "english" else sessM.language)) := by
      simp only [process_turn, hndM, if_false, hqM, hmiss]
      simp [process_decision, hfuM, hhintM]
    have hr1slots : (process_turn db (.ok dM) refineFn lmM nowM sessM
        planM).refined_slots = [sessM.state.question_index] := by
      simp only [process_turn, hndM, if_false, hqM, hmiss]
      simp [process_decision, hfuM, hhintM]
    have hr1turns : (process_turn db (.ok dM) refineFn lmM nowM sessM
          planM).turns.map (·.question_snapshot)
        = [refineFn qM.question_text (planItemAt planM sessM.state.question_index).type
            (if sessM.language == "" then "english" else sessM.language)] := by
      simp only [process_turn, hndM, if_false, hqM, hmiss]
      simp
    have hlook : lookupRefined (process_turn db (.ok dM) refineFn lmM nowM sessM
          planM).sess.state sessM.state.question_index
        = some (refineFn qM.question_text
            (planItemAt planM sessM.state.question_index).type
            (if sessM.language == "" then "english" else sessM.language)) := by
      rw [hr1sess, lookupRefined_insert]
    have hnd2 : ¬((process_turn db (.ok dM) refineFn lmM nowM sessM
          planM).sess.state.followup_count = 0
        ∧ planM.length ≤ (process_turn db (.ok dM) refineFn lmM nowM sessM
          planM).sess.state.question_index) := by
      rw [hr1sess]
      simpa [insertRefined] using hndM
    have hq2 : (if 0 < (process_turn db (.ok dM) refineFn lmM nowM sessM
            planM).sess.state.followup_count
          then (process_turn db (.ok dM) refineFn lmM nowM sessM
            planM).sess.state.current_question_id
          else (planItemAt planM (process_turn db (.ok dM) refineFn lmM nowM sessM
            planM).sess.state.question_index).selected_question_id).bind db
        = some qM := by
      rw [hr1sess]
      simpa [insertRefined] using hqM
    have hhit2 : lookupRefined (process_turn db (.ok dM) refineFn lmM nowM sessM
          planM).sess.state
          (process_turn db (.ok dM) refineFn lmM nowM sessM
            planM).sess.state.question_index
        = some (refineFn qM.question_text
            (planItemAt planM sessM.state.question_index).type
            (if sessM.language == "" then "english" else sessM.language)) := by
      rw [hr1sess]
      simpa [insertRefined] using
        lookupRefined_insert sessM.state sessM.state.question_index
          (refineFn qM.question_text (planItemAt planM sessM.state.question_index).type
            (if sessM.language == "" then "english" else sessM.language))
    refine ⟨hr1slots, hr1turns, hlook, ?_, ?_⟩
    · set s2 := (process_turn db (.ok dM) refineFn lmM nowM sessM planM).sess with hs2
      simp only [process_turn, hnd2, if_false, hq2, hhit2]
      simp [process_decision, hfuM2, hhintM2]
    · set s2 := (process_turn db (.ok dM) refineFn lmM nowM sessM planM).sess with hs2
      simp only [process_turn, hnd2, if_false, hq2, hhit2]
      simp

/-- C8 witness: the memoization facts evaluated on the sample data: a
pre-cached slot presents the cached text, and a second hint turn after a
cache miss refines nothing. -/
theorem C8_refinement_memoized_witness :
    (process_turn sampleDb (.ok ⟨"hint", "m", none, 1/2⟩) sampleRefine none 3
        { state := { refined_cache := [(0, "cached")] } }
        samplePlan).turns.map (·.question_snapshot) = ["cached"]
    ∧ (process_turn sampleDb (.ok ⟨"hint", "m", none, 1/2⟩) sampleRefine none 4
        (process_turn sampleDb (.ok ⟨"hint", "m", none, 1/2⟩) sampleRefine none 3
          {} samplePlan).sess samplePlan).refined_slots = [] := by
  have h1 := C8_refinement_memoized sampleDb sampleRefine none none none 3 3 4
    (.ok ⟨"hint", "m", none, 1/2⟩)
    { state := { refined_cache := [(0, "cached")] } } samplePlan sampleQ "cached"
    (by decide) rfl rfl {} samplePlan ⟨"hint", "m", none, 1/2⟩ ⟨"hint", "m", none, 1/2⟩
    sampleQ (by decide) rfl rfl rfl rfl
  exact ⟨h1.1.1, h1.2.2.2.2.1⟩


/-! ### Helper lemmas about the question selector -/

theorem getD_mem {α : Type} {l : List α} {i : Nat} (d : α) (h : i < l.length) :
    l.getD i d ∈ l := by
  rw [List.getD_eq_getElem l d h]
  exact List.getElem_mem h

theorem insertDesc_perm (a : Question × ℚ) (l : List (Question × ℚ)) :
    List.Perm (insertDesc a l) (a :: l) := by
  induction l with
  | nil => exact List.Perm.refl _
  | cons b bs ih =>
    rw [insertDesc]
    split
    · exact (ih.cons b).trans (List.Perm.swap a b bs)
    · exact List.Perm.refl _

theorem sortDesc_perm (l : List (Question × ℚ)) : List.Perm (sortDesc l) l := by
  induction l with
  | nil => exact List.Perm.refl _
  | cons a as ih =>
    have : sortDesc (a :: as) = insertDesc a (sortDesc as) := rfl
    rw [this]
    exact (insertDesc_perm a (sortDesc as)).trans (ih.cons a)

/-- The sampling loop never selects the same question id twice: the
`used_ids` bookkeeping of `select_questions` keeps the selected ids
distinct. -/
theorem selectLoop_nodup (fuel : Nat) : ∀ (tape : List Nat) (num : Nat)
    (top : List (Question × ℚ)) (selected : List Question) (used : List Nat),
    selected.map (·.id) = used → used.Nodup →
    ((selectLoop fuel tape num top selected used).map (·.id)).Nodup := by
  induction fuel with
  | zero =>
    intro tape num top selected used h hn
    rw [selectLoop, h]
    exact hn
  | succ fuel ih =>
    intro tape num top selected used h hn
    simp only [selectLoop]
    split
    · split
      · rw [h]; exact hn
      · rename_i hguard hrne
        split
        · exact ih _ _ _ _ _ h hn
        · have hchosen : ((top.filter (fun sq => !(used.contains sq.1.id))).getD
              ((tape.headD 0) % (top.filter (fun sq => !(used.contains sq.1.id))).length)
              (⟨0, "", [], none⟩, 0)) ∈ top.filter (fun sq => !(used.contains sq.1.id)) :=
            getD_mem _ (Nat.mod_lt _ (List.length_pos.mpr hrne))
          have hnotused := List.of_mem_filter hchosen
          apply ih
          · simp [h]
          · simp only [List.nodup_append, List.nodup_singleton, true_and, and_true, hn,
              List.disjoint_singleton]
            simpa using hnotused
    · rw [h]; exact hn

/-- Everything the sampling loop returns was already selected or came from
the `top_candidates` pool. -/
theorem selectLoop_subset (fuel : Nat) : ∀ (tape : List Nat) (num : Nat)
    (top : List (Question × ℚ)) (selected : List Question) (used : List Nat)
    (x : Question), x ∈ selectLoop fuel tape num top selected used →
    x ∈ selected ∨ x ∈ top.map (·.1) := by
  induction fuel with
  | zero =>
    intro tape num top selected used x hx
    rw [selectLoop] at hx
    exact Or.inl hx
  | succ fuel ih =>
    intro tape num top selected used x hx
    simp only [selectLoop] at hx
    split at hx
    · split at hx
      · exact Or.inl hx
      · rename_i hguard hrne
        split at hx
        · rcases ih _ _ _ _ _ _ hx with h | h
          · exact Or.inl h
          · right
            rcases List.mem_map.mp h with ⟨p, hp, rfl⟩
            exact List.mem_map.mpr ⟨p, List.mem_of_mem_erase hp, rfl⟩
        · rcases ih _ _ _ _ _ _ hx with h | h
          · rcases List.mem_append.mp h with h | h
            · exact Or.inl h
            · right
              have hchosen : ((top.filter (fun sq => !(used.contains sq.1.id))).getD
                  ((tape.headD 0) % (top.filter (fun sq => !(used.contains sq.1.id))).length)
                  (⟨0, "", [], none⟩, 0)) ∈ top.filter (fun sq => !(used.contains sq.1.id)) :=
                getD_mem _ (Nat.mod_lt _ (List.length_pos.mpr hrne))
              have := List.mem_of_mem_filter hchosen
              rcases List.mem_singleton.mp h with rfl
              exact List.mem_map.mpr ⟨_, this, rfl⟩
          · exact Or.inr h
    · exact Or.inl hx

/-- The sampling loop never drops already-selected questions. -/
theorem selectLoop_ne_nil (fuel : Nat) : ∀ (tape : List Nat) (num : Nat)
    (top : List (Question × ℚ)) (selected : List Question) (used : List Nat),
    selected ≠ [] → selectLoop fuel tape num top selected used ≠ [] := by
  induction fuel with
  | zero =>
    intro tape num top selected used h
    rw [selectLoop]
    exact h
  | succ fuel ih =>
    intro tape num top selected used h
    simp only [selectLoop]
    split
    · split
      · exact h
      · split
        · exact ih _ _ _ _ _ h
        · exact ih _ _ _ _ _ (by simp)
    · exact h

/-- Started on a non-empty pool with a positive request, the sampling loop
returns at least one question. -/
theorem selectLoop_start_ne_nil (fuel : Nat) (tape : List Nat) (num : Nat)
    (top : List (Question × ℚ)) (hfuel : 0 < fuel) (hnum : 0 < num)
    (htop : top ≠ []) :
    selectLoop fuel tape num top [] [] ≠ [] := by
  obtain ⟨f, rfl⟩ : ∃ f, fuel = f + 1 := ⟨fuel - 1, by omega⟩
  simp only [selectLoop]
  rw [if_pos ⟨by simpa using hnum, htop⟩]
  have hfil : top.filter (fun sq => !(([] : List Nat).contains sq.1.id)) = top := by
    simp
  rw [if_neg (by rw [hfil]; exact htop)]
  split
  · rename_i hcond
    exact absurd hcond.1 (by simp)
  · exact selectLoop_ne_nil f _ _ _ _ _ (by simp)

/-! ### The claims about the question selector -/

/-- C10: `select_questions` returns at most `num_questions` questions with
pairwise distinct ids, and returns the empty list (with no error) when
the store holds no candidate of the requested kind. -/
theorem C10_select_bounds (tape : List Nat) (candidates : List Question)
    (tw : List (String × ℚ)) (num : Nat) (recent excl : List Nat) :
    (select_questions tape candidates tw num recent excl).length ≤ num
    ∧ ((select_questions tape candidates tw num recent excl).map (·.id)).Nodup
    ∧ (candidates = [] → select_questions tape candidates tw num recent excl = []) := by
  refine ⟨?_, ?_, fun h => by simp [select_questions, h]⟩
  · by_cases h : candidates = []
    · simp [select_questions, h]
    · simp only [select_questions, h, if_false]
      exact List.length_take_le _ _
  · by_cases h : candidates = []
    · simp [select_questions, h]
    · simp only [select_questions, h, if_false]
      rw [List.map_take]
      exact (selectLoop_nodup _ tape num _ [] [] rfl
        List.nodup_nil).sublist (List.take_sublist _ _)

/-- C10 witness: an empty store yields the empty selection. -/
theorem C10_select_bounds_witness :
    select_questions [0] [] cexWeights 3 [] [] = [] :=
  (C10_select_bounds [0] [] cexWeights 3 [] []).2.2 rfl

/-- C7: no selected question id lies in the recent-history or exclusion
set as long as filtering does not empty the pool; and when at least one
candidate exists and at least one question is requested, the selection is
never empty (the unfiltered fallback). -/
theorem C7_exclusion_with_fallback (tape : List Nat) (candidates : List Question)
    (tw : List (String × ℚ)) (num : Nat) (recent excl : List Nat) :
    (candidates.filter (fun q => !((recent ++ excl).contains q.id)) ≠ [] →
      ∀ q ∈ select_questions tape candidates tw num recent excl,
        q.id ∉ recent ++ excl)
    ∧ (candidates ≠ [] → 1 ≤ num →
      select_questions tape candidates tw num recent excl ≠ []) := by
  constructor
  · intro h q hq
    have hc : candidates ≠ [] := by
      intro hc
      rw [hc] at h
      simp at h
    simp only [select_questions, hc, if_false, h] at hq
    have h1 := List.mem_of_mem_take hq
    rcases selectLoop_subset _ _ _ _ _ _ _ h1 with h2 | h2
    · simp at h2
    · have h3 : q ∈ (sortDesc ((candidates.filter
          (fun q => !((recent ++ excl).contains q.id))).map
          (fun q => (q, compute_match_score q tw)))).map (·.1) := by
        rw [List.map_take] at h2
        exact List.mem_of_mem_take h2
      have h4 : q ∈ ((candidates.filter
          (fun q => !((recent ++ excl).contains q.id))).map
          (fun q => (q, compute_match_score q tw))).map (·.1) :=
        ((sortDesc_perm _).map (·.1)).mem_iff.mp h3
      have h5 : q ∈ candidates.filter (fun q => !((recent ++ excl).contains q.id)) := by
        simpa [List.map_map, Function.comp] using h4
      simpa using List.of_mem_filter h5
  · intro hc hnum
    simp only [select_questions, hc, if_false]
    have hfc : (if candidates.filter (fun q => !((recent ++ excl).contains q.id)) = []
        then candidates
        else candidates.filter (fun q => !((recent ++ excl).contains q.id))) ≠ [] := by
      split
      · exact hc
      · assumption
    have hsortne : sortDesc ((if candidates.filter
        (fun q => !((recent ++ excl).contains q.id)) = [] then candidates
        else candidates.filter (fun q => !((recent ++ excl).contains q.id))).map
        (fun q => (q, compute_match_score q tw))) ≠ [] := by
      intro hnil
      apply hfc
      have hlen := (sortDesc_perm ((if candidates.filter
        (fun q => !((recent ++ excl).contains q.id)) = [] then candidates
        else candidates.filter (fun q => !((recent ++ excl).contains q.id))).map
        (fun q => (q, compute_match_score q tw)))).length_eq
      rw [hnil] at hlen
      simp only [List.length_nil, List.length_map] at hlen
      exact List.length_eq_zero.mp hlen.symm
    have hlp := List.length_pos.mpr hsortne
    have htopne : (sortDesc ((if candidates.filter
        (fun q => !((recent ++ excl).contains q.id)) = [] then candidates
        else candidates.filter (fun q => !((recent ++ excl).contains q.id))).map
        (fun q => (q, compute_match_score q tw)))).take
        (min (num * 3) (sortDesc ((if candidates.filter
          (fun q => !((recent ++ excl).contains q.id)) = [] then candidates
          else candidates.filter (fun q => !((recent ++ excl).contains q.id))).map
          (fun q => (q, compute_match_score q tw)))).length) ≠ [] := by
      rw [Ne, List.take_eq_nil_iff]
      push_neg
      refine ⟨?_, hsortne⟩
      intro hmin
      rcases Nat.min_eq_zero_iff.mp hmin with h0 | h0 <;> omega
    intro hempty
    rcases List.take_eq_nil_iff.mp hempty with h | h
    · omega
    · exact selectLoop_start_ne_nil _ tape num _ (by omega) (by omega) htopne h


section RatEval2
attribute [local semireducible] Rat.mul Rat.inv Rat.add Rat.sub

/-- C7 witness: with candidate `cexQ1` excluded by history, the selection
avoids the excluded id and is non-empty. -/
theorem C7_exclusion_with_fallback_witness :
    cexQ2.id ∉ ([1] ++ ([] : List Nat))
    ∧ select_questions [0] [cexQ1, cexQ2] cexWeights 1 [1] [] ≠ [] := by
  have h := C7_exclusion_with_fallback [0] [cexQ1, cexQ2] cexWeights 1 [1] []
  exact ⟨h.1 (by decide) cexQ2 (by decide), h.2 (by decide) (by decide)⟩

/-- C3 counterexample: on the five-question pool, with the random tape
drawing `cexQ1`, then `cexQ2`, then `cexQ3`, the selected batch contains
`cexQ1` and `cexQ3` whose pairwise topic Jaccard is `1 > 0.8`, even though
the two alternatives `cexQ4` and `cexQ5` (Jaccard `0` with every other
pool member) were available and unselected: the code only checks the new
draw against the *union* of already-selected topics (`{a,b}` vs `{a}`
gives `1/2 ≤ 0.8`), not pairwise. -/
theorem C3_pairwise_diversity_counterexample :
    select_questions [0, 1, 0] cexPool cexWeights 3 [] [] = [cexQ1, cexQ2, cexQ3]
    ∧ 4/5 < compute_jaccard_similarity cexQ1.topics.toFinset cexQ3.topics.toFinset
    ∧ cexQ4 ∈ cexPool ∧ cexQ5 ∈ cexPool
    ∧ cexQ4 ∉ select_questions [0, 1, 0] cexPool cexWeights 3 [] []
    ∧ cexQ5 ∉ select_questions [0, 1, 0] cexPool cexWeights 3 [] []
    ∧ compute_jaccard_similarity cexQ4.topics.toFinset cexQ1.topics.toFinset ≤ 4/5
    ∧ compute_jaccard_similarity cexQ4.topics.toFinset cexQ2.topics.toFinset ≤ 4/5
    ∧ compute_jaccard_similarity cexQ4.topics.toFinset cexQ3.topics.toFinset ≤ 4/5
    ∧ compute_jaccard_similarity cexQ5.topics.toFinset cexQ1.topics.toFinset ≤ 4/5
    ∧ compute_jaccard_similarity cexQ5.topics.toFinset cexQ2.topics.toFinset ≤ 4/5
    ∧ compute_jaccard_similarity cexQ5.topics.toFinset cexQ3.topics.toFinset ≤ 4/5
    ∧ compute_jaccard_similarity cexQ4.topics.toFinset cexQ5.topics.toFinset ≤ 4/5 := by
  decide

/-- C3 (amended): what the sampling loop actually enforces is
union-based, not pairwise, diversity: a draw whose topic Jaccard with the
union of the topics selected so far exceeds `0.8` is discarded and
removed from the pool when more than one candidate remained, and is
accepted when its union-overlap is at most `0.8`. -/
theorem C3_union_diversity_amended (fuel : Nat) (tape : List Nat) (num : Nat)
    (top : List (Question × ℚ)) (sel : List Question) (used : List Nat)
    (remaining : List (Question × ℚ)) (chosen : Question × ℚ)
    (h1 : sel.length < num) (h2 : top ≠ []) (hne : sel ≠ [])
    (hrem : remaining = top.filter (fun sq => !(used.contains sq.1.id)))
    (hrne : remaining ≠ [])
    (hch : chosen = remaining.getD ((tape.headD 0) % remaining.length)
      (⟨0, "", [], none⟩, 0)) :
    (4/5 < compute_jaccard_similarity
        (sel.foldl (fun acc q => acc ∪ q.topics.toFinset) ∅)
        chosen.1.topics.toFinset →
      1 < remaining.length →
      selectLoop (fuel + 1) tape num top sel used
        = selectLoop fuel tape.tail num (top.erase chosen) sel used)
    ∧ (compute_jaccard_similarity
        (sel.foldl (fun acc q => acc ∪ q.topics.toFinset) ∅)
        chosen.1.topics.toFinset ≤ 4/5 →
      selectLoop (fuel + 1) tape num top sel used
        = selectLoop fuel tape.tail num top (sel ++ [chosen.1])
            (used ++ [chosen.1.id])) := by
  subst hrem
  subst hch
  have hlen1 : 1 < (sel ++ [((top.filter (fun sq => !(used.contains sq.1.id))).getD
      ((tape.headD 0) % (top.filter (fun sq => !(used.contains sq.1.id))).length)
      (⟨0, "", [], none⟩, 0)).1]).length := by
    have := List.length_pos.mpr hne
    simp only [List.length_append, List.length_singleton]
    omega
  constructor
  · intro hov hlen
    simp only [selectLoop]
    rw [if_pos ⟨h1, h2⟩, if_neg hrne, if_pos ⟨hlen1, hov, hlen⟩]
  · intro hov
    simp only [selectLoop]
    rw [if_pos ⟨h1, h2⟩, if_neg hrne, if_neg (fun hcon => absurd hcon.2.1 (not_lt.mpr hov))]

/-- C3 amended witness: with `cexQ1` (topics `{a}`) already selected, the
draw of `cexQ3` (topics `{a}`, union overlap 1) is discarded and removed
from the pool. -/
theorem C3_union_diversity_amended_witness :
    selectLoop (4 + 1) [0] 3 [(cexQ3, 9/10), (cexQ2, 4/5)] [cexQ1] [1]
      = selectLoop 4 (List.tail [0]) 3
          ([(cexQ3, 9/10), (cexQ2, 4/5)].erase (cexQ3, 9/10)) [cexQ1] [1] :=
  (C3_union_diversity_amended 4 [0] 3 [(cexQ3, 9/10), (cexQ2, 4/5)] [cexQ1] [1]
    [(cexQ3, 9/10), (cexQ2, 4/5)] (cexQ3, 9/10) (by decide) (by decide) (by decide)
    (by decide) (by decide) (by decide)).1 (by decide) (by decide)

end RatEval2

/-- C6 witness: the failure fallback evaluated on the sample session. -/
theorem C6_reasoning_failure_advances_witness :
    (process_turn sampleDb (.error ()) sampleRefine none 3
        {} samplePlan2).sess.state.question_index = 0 + 1
    ∧ (process_turn sampleDb (.error ()) sampleRefine none 3
        {} samplePlan2).turns.map (·.overall_score) = [1/2] := by
  have h := C6_reasoning_failure_advances sampleDb sampleRefine none 3 {} samplePlan2
    sampleQ (by decide) rfl
  exact ⟨h.2.1, h.2.2.2.1⟩

end IISPrep
